import Mathlib

/-!
Verification of the discobot sandbox bridge against its specification.

The Python sources under `src/sandbox/` are shallowly embedded below:
pure fragments become Lean functions, byte strings become `List Nat`
(each element a byte value `< 256`), and the effectful handlers become
functions from an explicit request value to an explicit outcome value.
-/

/-! ## Base64 (as used by `http_proxy.py` and `shim.py` via `base64.b64encode` /
`base64.b64decode`)

Bytes are `Nat`s below 256; the encoded text is the list of ASCII codes of the
base64 alphabet characters, `61` being the code of the padding character. -/

/-- ASCII code of the base64 alphabet character for a 6-bit value `n`:
`A`-`Z`, `a`-`z`, `0`-`9`, `+`, `/`. -/
def b64CharCode (n : Nat) : Nat :=
  if n < 26 then 65 + n
  else if n < 52 then 97 + (n - 26)
  else if n < 62 then 48 + (n - 52)
  else if n = 62 then 43
  else 47

/-- Inverse table: 6-bit value of an ASCII code, `none` for characters outside
the base64 alphabet (the padding character `=` included). -/
def b64CharVal (c : Nat) : Option Nat :=
  if 65 ≤ c ∧ c ≤ 90 then some (c - 65)
  else if 97 ≤ c ∧ c ≤ 122 then some (26 + (c - 97))
  else if 48 ≤ c ∧ c ≤ 57 then some (52 + (c - 48))
  else if c = 43 then some 62
  else if c = 47 then some 63
  else none

/-- `base64.b64encode`: three input bytes become four alphabet characters, a
final group of one or two bytes is padded with `=` (ASCII 61). -/
def b64encode : List Nat → List Nat
  | [] => []
  | [a] =>
      [b64CharCode (a / 4), b64CharCode (a % 4 * 16), 61, 61]
  | [a, b] =>
      [b64CharCode (a / 4), b64CharCode (a % 4 * 16 + b / 16),
       b64CharCode (b % 16 * 4), 61]
  | a :: b :: c :: rest =>
      b64CharCode (a / 4) :: b64CharCode (a % 4 * 16 + b / 16) ::
      b64CharCode (b % 16 * 4 + c / 64) :: b64CharCode (c % 64) ::
      b64encode rest

/-- `base64.b64decode`: four characters at a time; padding is only accepted in
the final group; characters outside the alphabet reject the input. -/
def b64decode : List Nat → Option (List Nat)
  | [] => some []
  | w :: x :: y :: z :: rest =>
      match b64CharVal w, b64CharVal x with
      | some v1, some v2 =>
          if y = 61 ∧ z = 61 ∧ rest = [] then
            some [v1 * 4 + v2 / 16]
          else
            match b64CharVal y with
            | some v3 =>
                if z = 61 ∧ rest = [] then
                  some [v1 * 4 + v2 / 16, v2 % 16 * 16 + v3 / 4]
                else
                  match b64CharVal z, b64decode rest with
                  | some v4, some tail =>
                      some ((v1 * 4 + v2 / 16) :: (v2 % 16 * 16 + v3 / 4) ::
                            (v3 % 4 * 64 + v4) :: tail)
                  | _, _ => none
            | none => none
      | _, _ => none
  | _ => none

theorem b64CharVal_b64CharCode {n : Nat} (h : n < 64) :
    b64CharVal (b64CharCode n) = some n := by
  revert h; revert n; decide

theorem b64CharCode_ne_61 (n : Nat) : b64CharCode n ≠ 61 := by
  unfold b64CharCode; split <;> [omega; skip]
  split <;> [omega; skip]
  split <;> [omega; skip]
  split <;> omega

theorem b64CharCode_ne_10 (n : Nat) : b64CharCode n ≠ 10 := by
  unfold b64CharCode; split <;> [omega; skip]
  split <;> [omega; skip]
  split <;> [omega; skip]
  split <;> omega

theorem b64decode_b64encode (B : List Nat) (h : ∀ x ∈ B, x < 256) :
    b64decode (b64encode B) = some B := by
  induction B using b64encode.induct with
  | case1 => rfl
  | case2 a =>
      have ha : a < 256 := h a (by simp)
      have h1 : a / 4 < 64 := by omega
      have h2 : a % 4 * 16 < 64 := by omega
      simp only [b64encode, b64decode, b64CharVal_b64CharCode h1,
        b64CharVal_b64CharCode h2]
      rw [if_pos (by simp)]
      congr 1; congr 1; omega
  | case3 a b =>
      have ha : a < 256 := h a (by simp)
      have hb : b < 256 := h b (by simp)
      have h1 : a / 4 < 64 := by omega
      have h2 : a % 4 * 16 + b / 16 < 64 := by omega
      have h3 : b % 16 * 4 < 64 := by omega
      simp only [b64encode, b64decode, b64CharVal_b64CharCode h1,
        b64CharVal_b64CharCode h2, b64CharVal_b64CharCode h3]
      rw [if_neg (by simp [b64CharCode_ne_61 (b % 16 * 4)]),
        if_pos (by simp)]
      congr 1
      have e1 : a / 4 * 4 + (a % 4 * 16 + b / 16) / 16 = a := by omega
      have e2 : (a % 4 * 16 + b / 16) % 16 * 16 + b % 16 * 4 / 4 = b := by
        omega
      rw [e1, e2]
  | case4 a b c rest ih =>
      have ha : a < 256 := h a (by simp)
      have hb : b < 256 := h b (by simp)
      have hc : c < 256 := h c (by simp)
      have hrest : ∀ x ∈ rest, x < 256 := by
        intro x hx; exact h x (by simp [hx])
      have h1 : a / 4 < 64 := by omega
      have h2 : a % 4 * 16 + b / 16 < 64 := by omega
      have h3 : b % 16 * 4 + c / 64 < 64 := by omega
      have h4 : c % 64 < 64 := by omega
      simp only [b64encode, b64decode, b64CharVal_b64CharCode h1,
        b64CharVal_b64CharCode h2, b64CharVal_b64CharCode h3,
        b64CharVal_b64CharCode h4, ih hrest]
      rw [if_neg (by simp [b64CharCode_ne_61 (b % 16 * 4 + c / 64)]),
        if_neg (by simp [b64CharCode_ne_61 (c % 64)])]
      congr 1
      have e1 : a / 4 * 4 + (a % 4 * 16 + b / 16) / 16 = a := by omega
      have e2 : (a % 4 * 16 + b / 16) % 16 * 16 + (b % 16 * 4 + c / 64) / 4
          = b := by omega
      have e3 : (b % 16 * 4 + c / 64) % 4 * 64 + c % 64 = c := by omega
      rw [e1, e2, e3]

theorem b64encode_no_newline (B : List Nat) : 10 ∉ b64encode B := by
  induction B using b64encode.induct with
  | case1 => simp [b64encode]
  | case2 a =>
      simp [b64encode, (b64CharCode_ne_10 _).symm]
  | case3 a b =>
      simp [b64encode, (b64CharCode_ne_10 _).symm]
  | case4 a b c rest ih =>
      simp [b64encode, (b64CharCode_ne_10 _).symm, ih]

/-- C7: for every list of bytes `B` (empty lists and lists containing the
newline byte 10 included), base64-decoding the base64 encoding of `B` gives
back exactly `B`, and the encoded form contains no newline byte, so a base64
payload cannot break newline-delimited framing. -/
theorem c7_base64_roundtrip (B : List Nat) (h : ∀ x ∈ B, x < 256) :
    b64decode (b64encode B) = some B ∧ 10 ∉ b64encode B :=
  ⟨b64decode_b64encode B h, b64encode_no_newline B⟩

/-- C7 witness: a concrete byte string containing a newline byte round-trips
and its encoding is newline-free. -/
theorem c7_base64_roundtrip_witness :
    b64decode (b64encode [10, 0, 255]) = some [10, 0, 255] ∧
      10 ∉ b64encode [10, 0, 255] :=
  c7_base64_roundtrip [10, 0, 255] (by decide)

/-! ## Host Broker (`host_proxy.py`)

`dict(self.headers)` is modelled as an insertion-ordered association list with
Python-dict update semantics: assignment replaces the first entry with the
same key in place, otherwise appends; `del` removes entries with the key. -/

/-- Python `d[q]` lookup on the association-list model (first match). -/
def dictGet : List (String × String) → String → Option String
  | [], _ => none
  | (k, v) :: rest, q => if k = q then some v else dictGet rest q

/-- Python `q in d`. -/
def dictContains (d : List (String × String)) (q : String) : Bool :=
  d.any (fun p => p.1 == q)

/-- Python `d[k] = v`: replace in place, else append. -/
def dictSet : List (String × String) → String → String → List (String × String)
  | [], k, v => [(k, v)]
  | (k2, v2) :: rest, k, v =>
      if k2 = k then (k, v) :: rest else (k2, v2) :: dictSet rest k v

/-- Python `del d[k]` (the key's entries are removed). -/
def dictDel (d : List (String × String)) (k : String) : List (String × String) :=
  d.filter (fun p => p.1 != k)

/-- The three module-level key constants of `host_proxy.py`, read with
`os.environ.get(name, "")` from an environment modelled as a partial map. -/
structure HostKeys where
  google : String
  openai : String
  anthropic : String

def hostKeysOfEnv (env : String → Option String) : HostKeys :=
  { google := (env "GOOGLE_API_KEY").getD ""
    openai := (env "OPENAI_API_KEY").getD ""
    anthropic := (env "ANTHROPIC_API_KEY").getD "" }

/-- The request data `SecureProxyHandler.do_ANY` reads: `self.path` (as its
character list), `self.command`, `dict(self.headers)` and the request body. -/
structure HttpRequest where
  path : List Char
  method : String
  headers : List (String × String)
  body : Option (List Nat)

/-- What the handler does with a request: either `self.send_error code msg`
with no upstream contact, or build the outbound `urllib.request.Request`
(target URL, method, header mapping, body) — the single upstream call. -/
inductive Outcome where
  | sendError (code : Nat) (msg : String)
  | forward (url : List Char) (method : String)
      (headers : List (String × String)) (body : Option (List Nat))
  deriving DecidableEq

def Outcome.targetUrl : Outcome → Option (List Char)
  | .sendError _ _ => none
  | .forward u _ _ _ => some u

def Outcome.fwdHeaders : Outcome → Option (List (String × String))
  | .sendError _ _ => none
  | .forward _ _ hs _ => some hs

/-- Value of header `h` in the forwarded mapping, `none` when no upstream
request is made or the header is absent. -/
def Outcome.injectedAuth : Outcome → String → Option String
  | .sendError _ _, _ => none
  | .forward _ _ hs _, h => dictGet hs h

/-- The `if path.startswith(...)` chain of `do_ANY` (lines 26-37): target URL,
auth header name and auth value for the matched provider, `none` when
`target_url` stays empty. -/
def classifyPath (keys : HostKeys) (path : List Char) :
    Option (List Char × String × String) :=
  if ("/google".toList).isPrefixOf path then
    some ("https://generativelanguage.googleapis.com".toList ++ path.drop 7,
          "x-goog-api-key", keys.google)
  else if ("/openai".toList).isPrefixOf path then
    some ("https://api.openai.com".toList ++ path.drop 7,
          "Authorization", "Bearer " ++ keys.openai)
  else if ("/anthropic".toList).isPrefixOf path then
    some ("https://api.anthropic.com".toList ++ path.drop 10,
          "x-api-key", keys.anthropic)
  else none

/-- `SecureProxyHandler.do_ANY`: on no match `send_error(404, "Provider Not
Found")`; on match `headers[auth_header] = auth_value`, then
`del headers["Host"]` if present, then the outbound request is built. -/
def do_ANY (keys : HostKeys) (r : HttpRequest) : Outcome :=
  match classifyPath keys r.path with
  | none => .sendError 404 "Provider Not Found"
  | some (url, authHeader, authValue) =>
      .forward url r.method (dictDel (dictSet r.headers authHeader authValue) "Host") r.body

theorem dictGet_dictSet (d : List (String × String)) (k v : String) :
    dictGet (dictSet d k v) k = some v := by
  induction d with
  | nil => simp [dictSet, dictGet]
  | cons p rest ih =>
      by_cases h : p.1 = k
      · simp [dictSet, h, dictGet]
      · simp [dictSet, h, dictGet, ih]

theorem dictGet_dictDel_ne (d : List (String × String)) (k q : String)
    (h : q ≠ k) : dictGet (dictDel d k) q = dictGet d q := by
  induction d with
  | nil => rfl
  | cons p rest ih =>
      obtain ⟨pk, pv⟩ := p
      by_cases hk : pk = k
      · have h1 : dictDel ((pk, pv) :: rest) k = dictDel rest k := by
          simp [dictDel, List.filter_cons, hk]
        have h2 : pk ≠ q := fun e => h (by rw [← e, hk])
        rw [h1, ih]
        simp [dictGet, h2]
      · have h1 : dictDel ((pk, pv) :: rest) k = (pk, pv) :: dictDel rest k := by
          simp [dictDel, List.filter_cons, hk]
        rw [h1]
        simp only [dictGet, ih]

theorem dictContains_dictDel (d : List (String × String)) (k : String) :
    dictContains (dictDel d k) k = false := by
  induction d with
  | nil => rfl
  | cons p rest ih =>
      obtain ⟨pk, pv⟩ := p
      by_cases hk : pk = k
      · have h1 : dictDel ((pk, pv) :: rest) k = dictDel rest k := by
          simp [dictDel, List.filter_cons, hk]
        rw [h1]; exact ih
      · have h1 : dictDel ((pk, pv) :: rest) k = (pk, pv) :: dictDel rest k := by
          simp [dictDel, List.filter_cons, hk]
        rw [h1]
        have hb : (pk == k) = false := by simpa using hk
        simp only [dictContains, List.any_cons, hb, Bool.false_or]
        exact ih

theorem mem_dictSet_of_ne (d : List (String × String)) (k v : String)
    (p : String × String) (hp : p ∈ d) (hne : p.1 ≠ k) :
    p ∈ dictSet d k v := by
  induction d with
  | nil => cases hp
  | cons q rest ih =>
      obtain ⟨qk, qv⟩ := q
      rcases List.mem_cons.mp hp with hp | hp
      · subst hp
        by_cases hq : qk = k
        · exact absurd hq hne
        · simp [dictSet, hq]
      · by_cases hq : qk = k
        · simp [dictSet, hq, hp]
        · simp [dictSet, hq, ih hp]

theorem mem_dictDel_of_ne (d : List (String × String)) (k : String)
    (p : String × String) (hp : p ∈ d) (hne : p.1 ≠ k) :
    p ∈ dictDel d k := by
  simp only [dictDel, List.mem_filter, bne_iff_ne, ne_eq]
  exact ⟨hp, by simpa using hne⟩

theorem classifyPath_google (keys : HostKeys) (rest : List Char) :
    classifyPath keys ("/google".toList ++ rest) =
      some ("https://generativelanguage.googleapis.com".toList ++ rest,
            "x-goog-api-key", keys.google) := by
  simp [classifyPath, String.toList, List.isPrefixOf]

theorem classifyPath_openai (keys : HostKeys) (rest : List Char) :
    classifyPath keys ("/openai".toList ++ rest) =
      some ("https://api.openai.com".toList ++ rest,
            "Authorization", "Bearer " ++ keys.openai) := by
  simp [classifyPath, String.toList, List.isPrefixOf]

theorem classifyPath_anthropic (keys : HostKeys) (rest : List Char) :
    classifyPath keys ("/anthropic".toList ++ rest) =
      some ("https://api.anthropic.com".toList ++ rest,
            "x-api-key", keys.anthropic) := by
  simp [classifyPath, String.toList, List.isPrefixOf]

theorem do_ANY_google (keys : HostKeys) (m : String)
    (hs : List (String × String)) (b : Option (List Nat)) (rest : List Char) :
    do_ANY keys ⟨"/google".toList ++ rest, m, hs, b⟩ =
      Outcome.forward ("https://generativelanguage.googleapis.com".toList ++ rest)
        m (dictDel (dictSet hs "x-goog-api-key" keys.google) "Host") b := by
  simp only [do_ANY]
  rw [classifyPath_google]

theorem do_ANY_openai (keys : HostKeys) (m : String)
    (hs : List (String × String)) (b : Option (List Nat)) (rest : List Char) :
    do_ANY keys ⟨"/openai".toList ++ rest, m, hs, b⟩ =
      Outcome.forward ("https://api.openai.com".toList ++ rest)
        m (dictDel (dictSet hs "Authorization" ("Bearer " ++ keys.openai)) "Host") b := by
  simp only [do_ANY]
  rw [classifyPath_openai]

theorem do_ANY_anthropic (keys : HostKeys) (m : String)
    (hs : List (String × String)) (b : Option (List Nat)) (rest : List Char) :
    do_ANY keys ⟨"/anthropic".toList ++ rest, m, hs, b⟩ =
      Outcome.forward ("https://api.anthropic.com".toList ++ rest)
        m (dictDel (dictSet hs "x-api-key" keys.anthropic) "Host") b := by
  simp only [do_ANY]
  rw [classifyPath_anthropic]

theorem classifyPath_authHeaderName (keys : HostKeys) (path : List Char)
    (url : List Char) (ah av : String)
    (h : classifyPath keys path = some (url, ah, av)) :
    ah = "x-goog-api-key" ∨ ah = "Authorization" ∨ ah = "x-api-key" := by
  unfold classifyPath at h
  split at h
  · simp only [Option.some.injEq, Prod.mk.injEq] at h
    exact Or.inl h.2.1.symm
  · split at h
    · simp only [Option.some.injEq, Prod.mk.injEq] at h
      exact Or.inr (Or.inl h.2.1.symm)
    · split at h
      · simp only [Option.some.injEq, Prod.mk.injEq] at h
        exact Or.inr (Or.inr h.2.1.symm)
      · cases h

/-- C2: for every request whose path starts with none of the provider
prefix strings, `do_ANY` answers `send_error(404, "Provider Not Found")`
and never reaches the upstream-request path (no `forward` outcome). -/
theorem c2_unmatched_not_found (keys : HostKeys) (r : HttpRequest)
    (hg : ("/google".toList).isPrefixOf r.path = false)
    (ho : ("/openai".toList).isPrefixOf r.path = false)
    (ha : ("/anthropic".toList).isPrefixOf r.path = false) :
    do_ANY keys r = Outcome.sendError 404 "Provider Not Found" ∧
      ∀ url m hs b, do_ANY keys r ≠ Outcome.forward url m hs b := by
  have hcl : classifyPath keys r.path = none := by
    unfold classifyPath
    rw [hg, ho, ha]
    simp
  constructor
  · simp [do_ANY, hcl]
  · intro url m hs b
    simp [do_ANY, hcl]

/-- C2 witness: the unmatched path `/unknown/x` gets the 404 outcome and no
outbound request. -/
theorem c2_unmatched_not_found_witness :
    do_ANY ⟨"G", "O", "A"⟩ ⟨"/unknown/x".toList, "GET", [], none⟩ =
        Outcome.sendError 404 "Provider Not Found" ∧
      ∀ url m hs b,
        do_ANY ⟨"G", "O", "A"⟩ ⟨"/unknown/x".toList, "GET", [], none⟩ ≠
          Outcome.forward url m hs b :=
  c2_unmatched_not_found ⟨"G", "O", "A"⟩ ⟨"/unknown/x".toList, "GET", [], none⟩
    (by decide) (by decide) (by decide)

/-- C9: provider classification is raw character-prefix matching: every path
of the form prefix ++ rest (so also `/openaiX`, `/googlefoo`) is classified
to that provider and the whole remainder `rest` is appended verbatim to the
upstream authority. -/
theorem c9_raw_string_matching (keys : HostKeys) (m : String)
    (hs : List (String × String)) (b : Option (List Nat)) (rest : List Char) :
    (do_ANY keys ⟨"/google".toList ++ rest, m, hs, b⟩).targetUrl =
        some ("https://generativelanguage.googleapis.com".toList ++ rest) ∧
      (do_ANY keys ⟨"/openai".toList ++ rest, m, hs, b⟩).targetUrl =
        some ("https://api.openai.com".toList ++ rest) ∧
      (do_ANY keys ⟨"/anthropic".toList ++ rest, m, hs, b⟩).targetUrl =
        some ("https://api.anthropic.com".toList ++ rest) := by
  refine ⟨?_, ?_, ?_⟩
  · rw [do_ANY_google]; rfl
  · rw [do_ANY_openai]; rfl
  · rw [do_ANY_anthropic]; rfl

/-- C10: with a provider's credential variable absent from the environment,
the broker still classifies and forwards, injecting the documented header
with the empty credential (`Bearer ` with empty key for OpenAI). -/
theorem c10_missing_env_key (env : String → Option String)
    (hg : env "GOOGLE_API_KEY" = none) (ho : env "OPENAI_API_KEY" = none)
    (ha : env "ANTHROPIC_API_KEY" = none) (m : String)
    (hs : List (String × String)) (b : Option (List Nat)) (rest : List Char) :
    (do_ANY (hostKeysOfEnv env)
        ⟨"/google".toList ++ rest, m, hs, b⟩).injectedAuth "x-goog-api-key" =
        some "" ∧
      (do_ANY (hostKeysOfEnv env)
        ⟨"/openai".toList ++ rest, m, hs, b⟩).injectedAuth "Authorization" =
        some "Bearer " ∧
      (do_ANY (hostKeysOfEnv env)
        ⟨"/anthropic".toList ++ rest, m, hs, b⟩).injectedAuth "x-api-key" =
        some "" := by
  have hkeys : hostKeysOfEnv env = ⟨"", "", ""⟩ := by
    simp [hostKeysOfEnv, hg, ho, ha]
  rw [hkeys]
  refine ⟨?_, ?_, ?_⟩
  · rw [do_ANY_google]
    simp only [Outcome.injectedAuth]
    rw [dictGet_dictDel_ne _ _ _ (by decide), dictGet_dictSet]
  · rw [do_ANY_openai]
    simp only [Outcome.injectedAuth]
    rw [dictGet_dictDel_ne _ _ _ (by decide), dictGet_dictSet]
    rfl
  · rw [do_ANY_anthropic]
    simp only [Outcome.injectedAuth]
    rw [dictGet_dictDel_ne _ _ _ (by decide), dictGet_dictSet]

/-- C10 witness: with an empty environment, `GET /openai/v1/models` is still
forwarded with `Authorization: Bearer ` (empty key), and similarly for the
other two providers. -/
theorem c10_missing_env_key_witness :
    (do_ANY (hostKeysOfEnv fun _ => none)
        ⟨"/google".toList ++ "/v1".toList, "GET", [], none⟩).injectedAuth
        "x-goog-api-key" = some "" ∧
      (do_ANY (hostKeysOfEnv fun _ => none)
        ⟨"/openai".toList ++ "/v1".toList, "GET", [], none⟩).injectedAuth
        "Authorization" = some "Bearer " ∧
      (do_ANY (hostKeysOfEnv fun _ => none)
        ⟨"/anthropic".toList ++ "/v1".toList, "GET", [], none⟩).injectedAuth
        "x-api-key" = some "" :=
  c10_missing_env_key (fun _ => none) rfl rfl rfl "GET" [] none "/v1".toList

/-- C1 counterexample: for `/google/x` with configured key `"G"`, a
caller-supplied auth header `Authorization: Bearer evil` (an auth header of a
different provider) survives into the forwarded header mapping — the claim
that no caller-supplied auth header is forwarded is false. -/
theorem c1_counterexample :
    (do_ANY ⟨"G", "O", "A"⟩
        ⟨"/google/x".toList, "GET",
         [("Authorization", "Bearer evil"), ("Host", "sandbox")],
         none⟩).fwdHeaders =
      some [("Authorization", "Bearer evil"), ("x-goog-api-key", "G")] := by
  decide

/-- C1 (amended): on a provider match the forwarded mapping binds the
documented credential header to the configured credential and never contains
the literal key `Host`; a caller-supplied header whose name is exactly the
injected header's name is overwritten, but every other caller header —
including auth headers under other names or spellings — is forwarded
unchanged. -/
theorem c1_credential_injection (keys : HostKeys) (r : HttpRequest)
    (url : List Char) (ah av : String)
    (h : classifyPath keys r.path = some (url, ah, av)) :
    (do_ANY keys r).injectedAuth ah = some av ∧
      (do_ANY keys r).fwdHeaders =
        some (dictDel (dictSet r.headers ah av) "Host") ∧
      dictContains (dictDel (dictSet r.headers ah av) "Host") "Host" = false ∧
      ∀ p ∈ r.headers, p.1 ≠ ah → p.1 ≠ "Host" →
        p ∈ dictDel (dictSet r.headers ah av) "Host" := by
  have hah : ah ≠ "Host" := by
    rcases classifyPath_authHeaderName keys r.path url ah av h with e | e | e <;>
      (subst e; decide)
  refine ⟨?_, ?_, dictContains_dictDel _ _, ?_⟩
  · simp only [do_ANY, h, Outcome.injectedAuth]
    rw [dictGet_dictDel_ne _ _ _ hah, dictGet_dictSet]
  · simp only [do_ANY, h, Outcome.fwdHeaders]
  · intro p hp h1 h2
    exact mem_dictDel_of_ne _ _ _ (mem_dictSet_of_ne _ _ _ _ hp h1) h2

/-- C1 witness: concrete `GET /openai/v1/models` with a caller-supplied
`x-api-key` header: the amended statement applies with the classification
hypothesis discharged by evaluation. -/
theorem c1_credential_injection_witness :
    (do_ANY ⟨"G", "O", "A"⟩
        ⟨"/openai/v1/models".toList, "GET", [("x-api-key", "evil")],
         none⟩).injectedAuth "Authorization" = some "Bearer O" ∧
      (do_ANY ⟨"G", "O", "A"⟩
        ⟨"/openai/v1/models".toList, "GET", [("x-api-key", "evil")],
         none⟩).fwdHeaders =
        some (dictDel
          (dictSet [("x-api-key", "evil")] "Authorization" "Bearer O")
          "Host") ∧
      dictContains
        (dictDel (dictSet [("x-api-key", "evil")] "Authorization" "Bearer O")
          "Host") "Host" = false ∧
      ∀ p ∈ [("x-api-key", "evil")],
        p.1 ≠ "Authorization" → p.1 ≠ "Host" →
          p ∈ dictDel
            (dictSet [("x-api-key", "evil")] "Authorization" "Bearer O")
            "Host" :=
  c1_credential_injection ⟨"G", "O", "A"⟩
    ⟨"/openai/v1/models".toList, "GET", [("x-api-key", "evil")], none⟩
    ("https://api.openai.com/v1/models".toList) "Authorization" "Bearer O"
    (by decide)

/-! ## Command Shim (`shim.py`)

The shim's response loop parses each complete line with `json.loads` and
dispatches on `msg["type"]`. A received line is modelled by its parse and
dispatch outcome: a structured message carrying the fields the loop reads
(`data` still base64 text, as the ASCII byte list), or `junk` for a line
`json.loads` rejects or whose fields do not fit — the bare `except` skips it.
On `exit` the shim calls `sys.exit(msg["code"])`; on `error` it prints
`[Shim Error] <message>` to stderr and exits 1; when `recv` returns no data
the loop ends and `main` returns, so the process exits 0. -/

inductive ShimMsg where
  | stdoutMsg (data : List Nat)
  | stderrMsg (data : List Nat)
  | exitMsg (code : Int)
  | errMsg (message : String)
  | junk
  deriving DecidableEq

def ShimMsg.isTerminal : ShimMsg → Bool
  | .exitMsg _ => true
  | .errMsg _ => true
  | _ => false

/-- UTF-8 bytes of a string, for what `print(..., file=sys.stderr)` emits. -/
def strBytes (s : String) : List Nat :=
  s.toUTF8.toList.map (fun b => b.toNat)

/-- Local effect of one shim run over the received message stream: bytes
written to the local stdout and stderr, and the process exit status. -/
structure ShimOutput where
  out : List Nat
  err : List Nat
  code : Int
  deriving DecidableEq

/-- The dispatch loop of `shim.py` `main` (lines 27-56) over the decoded
lines. `stdout`/`stderr` chunks are base64-decoded and written immediately
(skipped when the decode fails, as the bare `except` does); `exit` stops with
the carried code; `error` stops with code 1 after the diagnostic line; an
exhausted stream falls out of the loop and exits 0. -/
def shimRun : List ShimMsg → ShimOutput
  | [] => ⟨[], [], 0⟩
  | .stdoutMsg d :: rest =>
      match b64decode d with
      | some bytes =>
          let r := shimRun rest
          ⟨bytes ++ r.out, r.err, r.code⟩
      | none => shimRun rest
  | .stderrMsg d :: rest =>
      match b64decode d with
      | some bytes =>
          let r := shimRun rest
          ⟨r.out, bytes ++ r.err, r.code⟩
      | none => shimRun rest
  | .exitMsg c :: _ => ⟨[], [], c⟩
  | .errMsg m :: _ => ⟨[], strBytes ("[Shim Error] " ++ m ++ "\n"), 1⟩
  | .junk :: rest => shimRun rest

/-- C6: stdout chunks are prepended to the remaining run's stdout and stderr
chunks to its stderr (so each stream preserves arrival order and is written
on decode); `exit` ends the run with exactly the carried code; `error` ends
it with the fixed code 1 after the diagnostic line; and the spec scenario —
remote sends `a` on stdout, `b` on stderr, exit 7 — produces local `a`/`b`
on the matching streams and status 7. -/
theorem c6_shim_dispatch :
    (∀ d b rest, b64decode d = some b →
        shimRun (ShimMsg.stdoutMsg d :: rest) =
          ⟨b ++ (shimRun rest).out, (shimRun rest).err, (shimRun rest).code⟩) ∧
      (∀ d b rest, b64decode d = some b →
        shimRun (ShimMsg.stderrMsg d :: rest) =
          ⟨(shimRun rest).out, b ++ (shimRun rest).err, (shimRun rest).code⟩) ∧
      (∀ c rest, shimRun (ShimMsg.exitMsg c :: rest) = ⟨[], [], c⟩) ∧
      (∀ m rest, shimRun (ShimMsg.errMsg m :: rest) =
        ⟨[], strBytes ("[Shim Error] " ++ m ++ "\n"), 1⟩) ∧
      shimRun [ShimMsg.stdoutMsg [89, 81, 61, 61],
               ShimMsg.stderrMsg [89, 103, 61, 61],
               ShimMsg.exitMsg 7] = ⟨[97], [98], 7⟩ := by
  refine ⟨?_, ?_, ?_, ?_, ?_⟩
  · intro d b rest hd
    simp [shimRun, hd]
  · intro d b rest hd
    simp [shimRun, hd]
  · intro c rest; rfl
  · intro m rest; rfl
  · decide

/-- C6 witness: the stdout equation applied at the concrete chunk `YQ==`
(base64 of `a`) with an empty remaining stream. -/
theorem c6_shim_dispatch_witness :
    shimRun [ShimMsg.stdoutMsg [89, 81, 61, 61]] = ⟨[97], [], 0⟩ := by
  have h := c6_shim_dispatch.1 [89, 81, 61, 61] [97] [] (by decide)
  simpa [shimRun] using h

/-- C8: when the transport hits end-of-stream with no terminal message ever
received (`exit` or `error`), the shim's loop just ends and the process
terminates with status 0, as a normal close. -/
theorem c8_eof_normal_close (msgs : List ShimMsg)
    (h : ∀ m ∈ msgs, m.isTerminal = false) :
    (shimRun msgs).code = 0 := by
  induction msgs with
  | nil => rfl
  | cons m rest ih =>
      have hrest : ∀ x ∈ rest, x.isTerminal = false := by
        intro x hx; exact h x (List.mem_cons_of_mem m hx)
      have hm := h m (List.mem_cons_self m rest)
      cases m with
      | stdoutMsg d =>
          simp only [shimRun]
          cases hb : b64decode d with
          | none => exact ih hrest
          | some bytes => simp [ih hrest]
      | stderrMsg d =>
          simp only [shimRun]
          cases hb : b64decode d with
          | none => exact ih hrest
          | some bytes => simp [ih hrest]
      | exitMsg c => cases hm
      | errMsg msg => cases hm
      | junk => exact ih hrest

/-- C8 witness: a stream of one stdout chunk and one unparsable line, no
terminal message: the shim exits 0. -/
theorem c8_eof_normal_close_witness :
    (shimRun [ShimMsg.stdoutMsg [89, 81, 61, 61], ShimMsg.junk]).code = 0 :=
  c8_eof_normal_close [ShimMsg.stdoutMsg [89, 81, 61, 61], ShimMsg.junk]
    (by decide)

/-! ## Tunnel Bridge (`proxy_bridge.py`, `bridge_tcp_to_unix`)

Bind phase (lines 9-14): the TCP server socket is bound to the requested
port with a single `bind` call — there is no retry of any kind — and on
success the function prints the log line
`[TCP Bridge] Listening on 127.0.0.1:<port> -> <unix_socket_path>`.
A conflict makes `bind` raise, which propagates out of the function.

Accept phase (lines 16-52): `while True: try: accept(); connect unix;
spawn two pipe threads; except Exception: print; break` — the `break`
leaves the accept loop, so no later connection is ever served. -/

/-- Outcome of the bind phase, parameterised by which ports are taken:
`none` models the uncaught `OSError` from `bind`, `some (port, line)` the
bound port and the printed report line. -/
def bridgeBind (taken : Nat → Bool) (tcp_port : Nat)
    (unix_socket_path : String) : Option (Nat × String) :=
  if taken tcp_port then none
  else some (tcp_port,
    "[TCP Bridge] Listening on 127.0.0.1:" ++ toString tcp_port ++ " -> "
      ++ unix_socket_path)

/-- One iteration of the accept loop, seen from outside: the accepted
connection was paired and its pipe threads spawned (`served`), or some step
of the iteration — `accept` or the Unix-socket `connect` — raised. -/
inductive ConnEvent where
  | served (id : Nat)
  | failed
  deriving DecidableEq

/-- The accept loop of `bridge_tcp_to_unix` over a schedule of connection
events: ids of the connections whose relay threads get spawned. The
`except Exception: ... break` makes any failure end the loop, dropping the
whole remaining schedule. -/
def bridgeAcceptLoop : List ConnEvent → List Nat
  | [] => []
  | .served id :: rest => id :: bridgeAcceptLoop rest
  | .failed :: _ => []

/-- C3 is false on the code: after a single failed connection (schedule
`[failed, served 1]`) the loop serves nothing — connection 1 is never
accepted — whereas the same loop without the failure serves both. The
`break` in the `except` arm terminates the accept loop instead of continuing
it. -/
theorem c3_accept_loop_stops_on_failure :
    bridgeAcceptLoop [ConnEvent.failed, ConnEvent.served 1] = [] ∧
      bridgeAcceptLoop [ConnEvent.served 0, ConnEvent.served 1] = [0, 1] :=
  ⟨rfl, rfl⟩

/-- C4 counterexample: with only the requested port 5000 taken and every
other port free, a bridge that retried successive ports (as the claim's
16-attempt bound requires) would bind 5001; the code's single `bind` simply
fails. -/
theorem c4_counterexample :
    bridgeBind (fun p => p == 5000) 5000 "/w/bridge.sock" = none := by
  decide

/-- C4 (amended): the Tunnel Bridge makes exactly one bind attempt: a
conflict on the requested port fails the bridge with no retry on any other
port, and on success it reports the requested port itself in the log line
`[TCP Bridge] Listening on 127.0.0.1:<port> -> <socket path>` (not in the
form `PORT:<port>`). -/
theorem c4_single_bind_attempt (taken : Nat → Bool) (tcp_port : Nat)
    (sp : String) :
    (taken tcp_port = true → bridgeBind taken tcp_port sp = none) ∧
      (taken tcp_port = false →
        bridgeBind taken tcp_port sp =
          some (tcp_port,
            "[TCP Bridge] Listening on 127.0.0.1:" ++ toString tcp_port
              ++ " -> " ++ sp)) := by
  constructor
  · intro h; simp [bridgeBind, h]
  · intro h; simp [bridgeBind, h]

/-- C4 witness: port 5000 taken fails; port 5000 free binds 5000 and prints
the log line. -/
theorem c4_single_bind_attempt_witness :
    bridgeBind (fun p => p == 5000) 5000 "/w/bridge.sock" = none ∧
      bridgeBind (fun _ => false) 5000 "/w/bridge.sock" =
        some (5000,
          "[TCP Bridge] Listening on 127.0.0.1:" ++ toString 5000
            ++ " -> " ++ "/w/bridge.sock") :=
  ⟨(c4_single_bind_attempt (fun p => p == 5000) 5000 "/w/bridge.sock").1
      (by decide),
    (c4_single_bind_attempt (fun _ => false) 5000 "/w/bridge.sock").2 rfl⟩

/-! ## Envelope clients (`http_proxy.py` `ProxyHandler.do_ANY` and `shim.py`
`main`)

`json.dumps` with its defaults: compact object on one line, separators
`", "` and `": "`, `ensure_ascii` escaping (`\"`, `\\`, `\n`, `\r`, `\t`,
`\b`, `\f`, `\u00xx` for other control characters, `\uxxxx` for non-ASCII —
astral characters are modelled with one `\uxxxx` group). The fetch client
sends `json.dumps(req) + "\n"` (http_proxy.py line 42); the shim sends
`json.dumps(req)` with no newline (shim.py line 23). -/

def hexDigit (m : Nat) : Char :=
  ("0123456789abcdef".toList).getD (m % 16) '0'

def jsonEscapeChar (c : Char) : List Char :=
  if c = '"' then ['\\', '"']
  else if c = '\\' then ['\\', '\\']
  else if c = '\n' then ['\\', 'n']
  else if c = '\r' then ['\\', 'r']
  else if c = '\t' then ['\\', 't']
  else if c.toNat = 8 then ['\\', 'b']
  else if c.toNat = 12 then ['\\', 'f']
  else if c.toNat < 32 then
    ['\\', 'u', '0', '0', hexDigit (c.toNat / 16), hexDigit c.toNat]
  else if c.toNat ≤ 126 then [c]
  else
    ['\\', 'u', hexDigit (c.toNat / 4096), hexDigit (c.toNat / 256),
     hexDigit (c.toNat / 16), hexDigit c.toNat]

def jsonEscape : List Char → List Char
  | [] => []
  | c :: cs => jsonEscapeChar c ++ jsonEscape cs

/-- A JSON string literal: quoted, escaped. -/
def jsonStr (s : String) : List Char :=
  '"' :: (jsonEscape s.toList ++ ['"'])

/-- The `", "`-separated `"k": v` field list of a string-valued object
(the `headers` dict). -/
def jsonFields : List (String × String) → List Char
  | [] => []
  | [(k, v)] => jsonStr k ++ ": ".toList ++ jsonStr v
  | (k, v) :: rest =>
      jsonStr k ++ ": ".toList ++ jsonStr v ++ ", ".toList ++ jsonFields rest

/-- The `", "`-separated element list of a string array (the `args` list). -/
def jsonStrArr : List String → List Char
  | [] => []
  | [s] => jsonStr s
  | s :: rest => jsonStr s ++ ", ".toList ++ jsonStrArr rest

/-- `json.dumps` of the `proxy_fetch` request dict built in
`ProxyHandler.do_ANY` (keys in insertion order: type, url, method, headers,
body; `body` is base64 text or `None`). -/
def fetchRequestJson (url method : String) (headers : List (String × String))
    (body : Option String) : List Char :=
  '\x7b' :: ("\"type\": \"proxy_fetch\", \"url\": ".toList ++ jsonStr url
    ++ ", \"method\": ".toList ++ jsonStr method
    ++ ", \"headers\": ".toList
    ++ ('\x7b' :: (jsonFields headers ++ ['\x7d']))
    ++ ", \"body\": ".toList
    ++ (match body with
        | some b => jsonStr b
        | none => "null".toList)
    ++ ['\x7d'])

/-- `json.dumps` of the command request dict built in `shim.py` `main`
(keys: command, args, cwd, env with the single allow-listed `GH_TOKEN`). -/
def shimRequestJson (command : String) (args : List String)
    (cwd ghToken : String) : List Char :=
  '\x7b' :: ("\"command\": ".toList ++ jsonStr command
    ++ ", \"args\": ".toList ++ ('[' :: (jsonStrArr args ++ [']']))
    ++ ", \"cwd\": ".toList ++ jsonStr cwd
    ++ ", \"env\": \x7b\"GH_TOKEN\": ".toList ++ jsonStr ghToken
    ++ "\x7d\x7d".toList)

/-- Bytes the fetch client writes on its fresh connection:
`(json.dumps(req) + "\n").encode("utf-8")`. -/
def fetchSendChars (url method : String) (headers : List (String × String))
    (body : Option String) : List Char :=
  fetchRequestJson url method headers body ++ ['\n']

/-- Bytes the Command Shim writes on its fresh connection:
`json.dumps(req).encode("utf-8")` — no trailing newline. -/
def shimSendChars (command : String) (args : List String)
    (cwd ghToken : String) : List Char :=
  shimRequestJson command args cwd ghToken

theorem hexDigit_ne_newline (m : Nat) : hexDigit m ≠ '\n' := by
  have hlt : m % 16 < 16 := Nat.mod_lt m (by norm_num)
  have hall : ∀ i, i < 16 →
      (("0123456789abcdef".toList).getD i '0') ≠ '\n' := by decide
  exact hall (m % 16) hlt

theorem jsonEscapeChar_no_newline (c : Char) : '\n' ∉ jsonEscapeChar c := by
  unfold jsonEscapeChar
  split_ifs with h1 h2 h3 h4 h5 h6 h7 h8 h9 <;>
    simp_all [List.mem_cons, hexDigit_ne_newline, Ne.symm (hexDigit_ne_newline _)]
  exact fun e => h3 e.symm

theorem jsonEscape_no_newline (l : List Char) : '\n' ∉ jsonEscape l := by
  induction l with
  | nil => simp [jsonEscape]
  | cons c cs ih =>
      simp only [jsonEscape, List.mem_append]
      rintro (h | h)
      · exact jsonEscapeChar_no_newline c h
      · exact ih h

theorem jsonStr_no_newline (s : String) : '\n' ∉ jsonStr s := by
  simp only [jsonStr, List.mem_cons, List.mem_append]
  rintro (h | h | h)
  · cases h
  · exact jsonEscape_no_newline _ h
  · simp at h

theorem jsonFields_no_newline (hs : List (String × String)) :
    '\n' ∉ jsonFields hs := by
  induction hs using jsonFields.induct with
  | case1 => simp [jsonFields]
  | case2 k v =>
      simp only [jsonFields, List.mem_append]
      rintro ((h | h) | h)
      · exact jsonStr_no_newline _ h
      · simp at h
      · exact jsonStr_no_newline _ h
  | case3 k v rest hne ih =>
      simp only [jsonFields, List.mem_append]
      rintro ((((h | h) | h) | h) | h)
      · exact jsonStr_no_newline _ h
      · simp at h
      · exact jsonStr_no_newline _ h
      · simp at h
      · exact ih h

theorem jsonStrArr_no_newline (xs : List String) : '\n' ∉ jsonStrArr xs := by
  induction xs using jsonStrArr.induct with
  | case1 => simp [jsonStrArr]
  | case2 s => exact jsonStr_no_newline s
  | case3 s rest hne ih =>
      simp only [jsonStrArr, List.mem_append]
      rintro ((h | h) | h)
      · exact jsonStr_no_newline _ h
      · simp at h
      · exact ih h

theorem noNL_append {a b : List Char} (ha : '\n' ∉ a) (hb : '\n' ∉ b) :
    '\n' ∉ a ++ b := fun h => (List.mem_append.mp h).elim ha hb

theorem noNL_cons {c : Char} {l : List Char} (hc : '\n' ≠ c)
    (hl : '\n' ∉ l) : '\n' ∉ c :: l := by
  intro h
  rcases List.mem_cons.mp h with h | h
  · exact hc h
  · exact hl h

theorem fetchRequestJson_no_newline (url method : String)
    (headers : List (String × String)) (body : Option String) :
    '\n' ∉ fetchRequestJson url method headers body := by
  cases body with
  | none =>
      unfold fetchRequestJson
      repeat' first
        | apply noNL_append
        | apply noNL_cons (by decide)
      all_goals first
        | decide
        | exact jsonStr_no_newline _
        | exact jsonFields_no_newline _
        | exact jsonEscape_no_newline _
  | some b =>
      unfold fetchRequestJson
      repeat' first
        | apply noNL_append
        | apply noNL_cons (by decide)
      all_goals first
        | decide
        | exact jsonStr_no_newline _
        | exact jsonFields_no_newline _
        | exact jsonEscape_no_newline _

theorem shimRequestJson_no_newline (command : String) (args : List String)
    (cwd ghToken : String) :
    '\n' ∉ shimRequestJson command args cwd ghToken := by
  unfold shimRequestJson
  repeat' first
    | apply noNL_append
    | apply noNL_cons (by decide)
  all_goals first
    | decide
    | exact jsonStr_no_newline _
    | exact jsonStrArr_no_newline _
    | exact jsonEscape_no_newline _

/-- C5 counterexample: the Command Shim's sent bytes for a concrete
invocation (`gh status` from `/w`, empty token) are not newline-terminated —
`client.sendall(json.dumps(req).encode(...))` appends no newline, so the
claim is false for the shim. -/
theorem c5_counterexample :
    (shimSendChars "gh" ["status"] "/w" "").getLast? ≠ some '\n' := by
  decide

/-- C5 (amended): the fetch client writes its request as a single
newline-terminated JSON object — the sent bytes contain exactly one newline
and it is the final character — while the Command Shim writes its request
JSON object with no newline at all (in particular not newline-terminated). -/
theorem c5_envelope_framing (url method : String)
    (headers : List (String × String)) (body : Option String)
    (command : String) (args : List String) (cwd ghToken : String) :
    (fetchSendChars url method headers body).count '\n' = 1 ∧
      (fetchSendChars url method headers body).getLast? = some '\n' ∧
      '\n' ∉ shimSendChars command args cwd ghToken := by
  refine ⟨?_, ?_, shimRequestJson_no_newline command args cwd ghToken⟩
  · unfold fetchSendChars
    rw [List.count_append,
      List.count_eq_zero.mpr (fetchRequestJson_no_newline url method headers body)]
    rfl
  · unfold fetchSendChars
    exact List.getLast?_concat _
